import Mathlib

/-!
# Verification of the ogdar radar-capture core

Shallow embedding of the buffer package (`src/buffer/buffer.go`, with the
alternate revision in `src/unnamed/part_000`) and the fpga package
(`src/unnamed/part_005`, with older revisions in `src/fpga/fpga.go`).

Modelling conventions:
* Go machine integers are `Nat` (for the unsigned types, with an explicit
  `% 2 ^ w` wherever the Go code converts or can overflow) and `Int` for
  Go `int` parameters that may be negative.
* A Go slice of the sample ring is a view descriptor `(start, len)` into the
  backing array; the nil slice is `none`.
* A Go runtime panic (out-of-range index) is the `GoResult.panic` value.
* Arrays / memory are functions from index (or byte offset) to value;
  mutation is functional update.
-/

namespace Ogdar

/-- Result of running a piece of Go code that can panic at runtime:
either a normal value or a panic (here always an out-of-range slice index). -/
inductive GoResult (α : Type) where
  | panic : GoResult α
  | value : α → GoResult α

/-- Functional update of an array modelled as `Nat → Nat`
(`a[i] = v` in the Go source). -/
def writeSample (buf : Nat → Nat) (i v : Nat) : Nat → Nat :=
  fun j => if j = i then v else buf j

namespace Buffer

/-! ## src/buffer/buffer.go -/

/-- `NOT_A_SAMPLE Sample = 0xffff` — src/buffer/buffer.go line 25.
A `Sample` is a `uint16`; we model it as a `Nat` below `2 ^ 16`. -/
def NOT_A_SAMPLE : Nat := 0xffff

/-- `SWEEP_BUFF_SIZE = 5` — src/buffer/buffer.go line 83. -/
def SWEEP_BUFF_SIZE : Nat := 5

/-- `MAX_PRF = 2200` — src/buffer/buffer.go line 84. -/
def MAX_PRF : Nat := 2200

/-- `MIN_RPM = 22` — src/buffer/buffer.go line 85. -/
def MIN_RPM : Nat := 22

/-- `MAX_SWEEP_SCANLINES = MAX_PRF * (60 / MIN_RPM)` — src/buffer/buffer.go
line 86.  Go evaluates `60 / MIN_RPM` on untyped integer constants with
truncating division, exactly as `Nat` division does. -/
def MAX_SWEEP_SCANLINES : Nat := MAX_PRF * (60 / MIN_RPM)

/-- `MAX_SCANLINE_SAMPLES = 4000` — src/buffer/buffer.go line 87. -/
def MAX_SCANLINE_SAMPLES : Nat := 4000

/-- `SAMPLE_BUFF_SIZE = SWEEP_BUFF_SIZE * MAX_SWEEP_SCANLINES * MAX_SCANLINE_SAMPLES`
— src/buffer/buffer.go line 88. -/
def SAMPLE_BUFF_SIZE : Nat := SWEEP_BUFF_SIZE * MAX_SWEEP_SCANLINES * MAX_SCANLINE_SAMPLES

/-- `SCANLINE_BUFF_SIZE = SWEEP_BUFF_SIZE * MAX_SWEEP_SCANLINES`
— src/buffer/buffer.go line 89. -/
def SCANLINE_BUFF_SIZE : Nat := SWEEP_BUFF_SIZE * MAX_SWEEP_SCANLINES

/-- `SampleBuff` — src/buffer/buffer.go lines 96-100.  The ring array
`SampBuff [SAMPLE_BUFF_SIZE]Sample` is a function from index to sample value;
`iSample` is the (always non-negative) write cursor of type `int`;
`nSamples` is a `uint64` counter. -/
structure SampleBuff where
  SampBuff : Nat → Nat := fun _ => 0
  iSample : Nat := 0
  nSamples : Nat := 0

/-- `func (sb *SampleBuff) NextSliceFor(n int) (s []Sample)` —
src/buffer/buffer.go lines 104-117.  Returns the slice view (start index and
length into `SampBuff`, `none` for the nil slice) together with the updated
receiver.  `len(sb.SampBuff)` is the array bound `SAMPLE_BUFF_SIZE`;
`nSamples += uint64(n)` is addition modulo `2 ^ 64`. -/
def NextSliceFor (sb : SampleBuff) (n : Int) : Option (Nat × Nat) × SampleBuff :=
  if n ≤ 0 then
    (none, sb)
  else if n ≤ (SAMPLE_BUFF_SIZE : Int) then
    let m := n.toNat
    let w := if sb.iSample + m > SAMPLE_BUFF_SIZE then 0 else sb.iSample
    (some (w, m),
     { sb with iSample := w + m, nSamples := (sb.nSamples + m) % 2 ^ 64 })
  else
    (none, sb)

/-- `Scanline` — src/buffer/buffer.go lines 42-57.  `TrigCount` is a `uint64`;
`Samples` is a slice of the sample ring (view descriptor, `none` = nil). -/
structure Scanline where
  ARPCount : Nat := 0
  TrigClock : Nat := 0
  TrigCount : Nat := 0
  ACPClock : Nat := 0
  Samples : Option (Nat × Nat) := none

/-- `ScanlineBuff` — src/buffer/buffer.go lines 122-127.  The embedded
`*SampleBuff` is the field `samp`; `ScanBuff [SCANLINE_BUFF_SIZE]Scanline`
is a function from index to slot. -/
structure ScanlineBuff where
  samp : SampleBuff := {}
  ScanBuff : Nat → Scanline := fun _ => {}
  iScanline : Nat := 0
  nScanlines : Nat := 0

/-- `func (slb *ScanlineBuff) Next(n int, trig uint64) (i int, err error)` —
src/buffer/buffer.go lines 133-149.

The result is `none` for the `(0, err)` error return and `some i` for the
success return with `err == nil`.  `Sample(trig)` is `trig % 2 ^ 16`.
`samps[0]` and `samps[1]` are bounds-checked against the slice length as in
Go (`&&` of the checks staged in source order), producing `GoResult.panic`
on an out-of-range index. -/
def Next (slb : ScanlineBuff) (n : Int) (trig : Nat) :
    GoResult (Option Nat × ScanlineBuff) :=
  match NextSliceFor slb.samp (n + 2) with
  | (none, sb') => .value (none, { slb with samp := sb' })
  | (some (st, len), sb') =>
    let k := if slb.iScanline ≥ SCANLINE_BUFF_SIZE then 0 else slb.iScanline
    if 0 < len then
      if 1 < len then
        .value (some k,
          { samp := { SampBuff :=
                        writeSample (writeSample sb'.SampBuff st NOT_A_SAMPLE)
                          (st + 1) (trig % 2 ^ 16),
                      iSample := sb'.iSample, nSamples := sb'.nSamples },
            ScanBuff := fun j =>
              if j = k then { slb.ScanBuff k with Samples := some (st, len) }
              else slb.ScanBuff j,
            iScanline := k + 1,
            nScanlines := slb.nScanlines })
      else .panic
    else .panic

/-- `func (s Scanline) Valid() (bool)` — src/buffer/buffer.go lines 151-153:
`return s.Samples[0] == NOT_A_SAMPLE && s.Samples[1] == Sample(s.TrigCount)`.
`buf` is the sample ring the `Samples` view points into.  Go `&&`
short-circuits, so `s.Samples[1]` is only indexed (and can only panic) when
the first comparison is true; each index is bounds-checked against the
slice length. -/
def Valid (buf : Nat → Nat) (s : Scanline) : GoResult Bool :=
  match s.Samples with
  | none => .panic
  | some (st, len) =>
    if 0 < len then
      if buf st = NOT_A_SAMPLE then
        if 1 < len then .value (decide (buf (st + 1) = s.TrigCount % 2 ^ 16))
        else .panic
      else .value false
    else .panic

end Buffer

namespace BufferRev

/-! ## src/unnamed/part_000 (second revision of package buffer) -/

/-- `NOT_A_SAMPLE Sample = 0x0000` — src/unnamed/part_000 line 141
(the alternate revision of the buffer package, whose comment records that
the FPGA never returns 0, reserving it as a sentinel). -/
def NOT_A_SAMPLE : Nat := 0x0000

end BufferRev

namespace Fpga

/-! ## src/unnamed/part_005 (package fpga, digdar build) -/

/-- `SAMPLES_PER_BUFF = 16 * 1024` — src/unnamed/part_005 line 55. -/
def SAMPLES_PER_BUFF : Nat := 16 * 1024

/-- `STATUS_ARMED Status = 1 << iota` — src/unnamed/part_005 line 88. -/
def STATUS_ARMED : Nat := 1

/-- `STATUS_CAPTURING` (`1 << 1`) — src/unnamed/part_005 line 89. -/
def STATUS_CAPTURING : Nat := 2

/-- `STATUS_FIRED` (`1 << 2`, i.e. bit 2) — src/unnamed/part_005 line 90. -/
def STATUS_FIRED : Nat := 4

/-- The `regs` register block — src/unnamed/part_005 lines 128-224.
Every field is a `uint32` or `uint64` FPGA register, modelled as `Nat`. -/
structure Regs where
  Command : Nat := 0
  TrigSource : Nat := 0
  NumSamp : Nat := 0
  DecRate : Nat := 0
  Options : Nat := 0
  TrigThreshExcite : Nat := 0
  TrigThreshRelax : Nat := 0
  TrigDelay : Nat := 0
  TrigLatency : Nat := 0
  TrigCount : Nat := 0
  ACPThreshExcite : Nat := 0
  ACPThreshRelax : Nat := 0
  ACPLatency : Nat := 0
  ARPThreshExcite : Nat := 0
  ARPThreshRelax : Nat := 0
  ARPLatency : Nat := 0
  TrigClock : Nat := 0
  TrigPrevClock : Nat := 0
  ACPClock : Nat := 0
  ACPPrevClock : Nat := 0
  ARPClock : Nat := 0
  ARPPrevClock : Nat := 0
  ACPCount : Nat := 0
  ARPCount : Nat := 0
  ACPPerARP : Nat := 0
  ACPAtARP : Nat := 0
  ClockSinceACPAtARP : Nat := 0
  TrigAtARP : Nat := 0
  Clocks : Nat := 0
  SavedTrigClock : Nat := 0
  SavedTrigPrevClock : Nat := 0
  SavedACPClock : Nat := 0
  SavedACPPrevClock : Nat := 0
  SavedARPClock : Nat := 0
  SavedARPPrevClock : Nat := 0
  SavedTrigCount : Nat := 0
  SavedACPCount : Nat := 0
  SavedARPCount : Nat := 0
  SavedACPPerARP : Nat := 0
  SavedACPAtARP : Nat := 0
  SavedClockSinceACPAtARP : Nat := 0
  SavedTrigAtARP : Nat := 0
  ADCCounter : Nat := 0
  ACPRaw : Nat := 0
  ARPRaw : Nat := 0
  Status : Nat := 0

/-- `func SetDecim(decim uint32) bool` — src/unnamed/part_005 lines 423-429.
Returns the Go boolean result and the updated register block. -/
def SetDecim (decim : Nat) (r : Regs) : Bool × Regs :=
  if decim < 1 ∨ decim > 65536 then (false, r)
  else (true, { r with DecRate := decim })

/-- `func SetNumSamp(n uint32) bool` — src/unnamed/part_005 lines 434-440.
(`FPGA.SetNumSamp` in src/fpga/fpga.go lines 277-283 is identical.) -/
def SetNumSamp (n : Nat) (r : Regs) : Bool × Regs :=
  if n > SAMPLES_PER_BUFF ∨ n < 1 then (false, r)
  else (true, { r with NumSamp := n })

/-- `func HasFired() bool` — src/unnamed/part_005 lines 444-446:
`return (Regs.Status & uint32(STATUS_FIRED)) == 0`. -/
def HasFired (r : Regs) : Bool :=
  decide (r.Status &&& STATUS_FIRED = 0)

/-- The fields of the `regs` struct in declaration order with their byte
sizes (4 for `uint32`, 8 for `uint64`) — src/unnamed/part_005 lines 128-224.
This is the input that `Init`'s reflection loop iterates over. -/
def regFields : List (String × Nat) :=
  [("Command", 4), ("TrigSource", 4), ("NumSamp", 4), ("DecRate", 4),
   ("Options", 4), ("TrigThreshExcite", 4), ("TrigThreshRelax", 4),
   ("TrigDelay", 4), ("TrigLatency", 4), ("TrigCount", 4),
   ("ACPThreshExcite", 4), ("ACPThreshRelax", 4), ("ACPLatency", 4),
   ("ARPThreshExcite", 4), ("ARPThreshRelax", 4), ("ARPLatency", 4),
   ("TrigClock", 8), ("TrigPrevClock", 8), ("ACPClock", 8),
   ("ACPPrevClock", 8), ("ARPClock", 8), ("ARPPrevClock", 8),
   ("ACPCount", 4), ("ARPCount", 4), ("ACPPerARP", 4), ("ACPAtARP", 4),
   ("ClockSinceACPAtARP", 4), ("TrigAtARP", 4),
   ("Clocks", 8),
   ("SavedTrigClock", 8), ("SavedTrigPrevClock", 8), ("SavedACPClock", 8),
   ("SavedACPPrevClock", 8), ("SavedARPClock", 8), ("SavedARPPrevClock", 8),
   ("SavedTrigCount", 4), ("SavedACPCount", 4), ("SavedARPCount", 4),
   ("SavedACPPerARP", 4), ("SavedACPAtARP", 4),
   ("SavedClockSinceACPAtARP", 4), ("SavedTrigAtARP", 4),
   ("ADCCounter", 4), ("ACPRaw", 4), ("ARPRaw", 4), ("Status", 4)]

/-- The loop body of `Init` — src/unnamed/part_005 lines 364-380: expand each
field into its 32-bit lanes, pairing each lane name with its byte offset
(`f.Offset`) into the register block.  A `uint64` field contributes the lanes
`name_lo` at offset `o` and `name_hi` at `o+4`; a `uint32` field one lane at
`o`.  Every `uint64` field of `regs` sits at an 8-aligned accumulated offset,
so `reflect`'s `f.Offset` equals the running byte sum with no padding. -/
def regLanes : List (String × Nat) → Nat → List (String × Nat)
  | [], _ => []
  | (nm, sz) :: rest, off =>
    if sz = 8 then
      (nm ++ "_lo", off) :: (nm ++ "_hi", off + 4) :: regLanes rest (off + sz)
    else
      (nm, off) :: regLanes rest (off + sz)

/-- `RegKeys` paired with `RegIndex` in storage order, as built by `Init`
(src/unnamed/part_005 lines 358-380): the i-th entry is the i-th register
name and its byte offset. -/
def regEntries : List (String × Nat) := regLanes regFields 0

/-- Index of the first entry with the given name in an association list;
`RegMap[x]` of the Go code is this applied to `regEntries` (the names are
pairwise distinct, see `regEntries_names_nodup`). -/
def lookupIdx : List (String × Nat) → String → Option Nat
  | [], _ => none
  | e :: rest, x =>
    if e.1 = x then some 0 else (lookupIdx rest x).map (· + 1)

/-- `RegMap` — the name-to-index map built by `Init`
(src/unnamed/part_005 lines 358-380). -/
def RegMap (x : String) : Option Nat := lookupIdx regEntries x

/-- `func GetRegByIndex(i int) (uint32, bool)` — src/unnamed/part_005
lines 273-278.  `mem` is the mapped register block, byte offset to 32-bit
lane value.  The Go bound `i >= len(RegMap)` equals `regEntries.length ≤ i`
because the names are pairwise distinct. -/
def GetRegByIndex (mem : Nat → Nat) (i : Nat) : Nat × Bool :=
  if regEntries.length ≤ i then (0, false)
  else (mem (regEntries.getD i ("", 0)).2, true)

/-- `func GetRegByName(x string) (uint32, bool)` — src/unnamed/part_005
lines 282-288. -/
def GetRegByName (mem : Nat → Nat) (x : String) : Nat × Bool :=
  match RegMap x with
  | none => (0, false)
  | some i => GetRegByIndex mem i

/-- `func SetRegByIndex(i int, v uint32) bool` — src/unnamed/part_005
lines 292-298.  Returns the updated register block and the Go boolean. -/
def SetRegByIndex (mem : Nat → Nat) (i : Nat) (v : Nat) : (Nat → Nat) × Bool :=
  if regEntries.length ≤ i then (mem, false)
  else (fun o => if o = (regEntries.getD i ("", 0)).2 then v else mem o, true)

/-- `func SetRegByName(x string, v uint32) bool` — src/unnamed/part_005
lines 302-308. -/
def SetRegByName (mem : Nat → Nat) (x : String) (v : Nat) : (Nat → Nat) × Bool :=
  match RegMap x with
  | none => (mem, false)
  | some i => SetRegByIndex mem i v

end Fpga

end Ogdar

/-! # Theorems -/

namespace Ogdar

namespace Buffer

/-- A failed sample-ring allocation returns the nil slice with the receiver
unchanged (both nil-returning paths of `NextSliceFor` fall through without
touching `iSample` or `nSamples`). -/
theorem nextSliceFor_of_none (sb : SampleBuff) (n : Int)
    (h : (NextSliceFor sb n).1 = none) : NextSliceFor sb n = (none, sb) := by
  by_cases h0 : n ≤ 0
  · unfold NextSliceFor
    rw [if_pos h0]
  · by_cases h1 : n ≤ (SAMPLE_BUFF_SIZE : Int)
    · exfalso
      unfold NextSliceFor at h
      rw [if_neg h0, if_pos h1] at h
      simp at h
    · unfold NextSliceFor
      rw [if_neg h0, if_neg h1]

/-- Claim C1: for the sample ring allocator `SampleBuff.NextSliceFor` with
capacity `S = SAMPLE_BUFF_SIZE` and write cursor `w = iSample`: if `n ≤ 0` or
`n > S` the call returns the nil slice and leaves the cursor and the
total-samples counter unchanged; otherwise, if `w + n > S`, the cursor is
first set to `0`, and the call returns the contiguous view starting at the
(possibly wrapped) cursor of length `n` — never a slice split across the
wrap, as the final conjunct states — advances the cursor by `n`, and
increments the total-samples counter by `n` (as a `uint64`). -/
theorem nextSliceFor_spec (sb : SampleBuff) (n : Int) :
    (n ≤ 0 ∨ (SAMPLE_BUFF_SIZE : Int) < n → NextSliceFor sb n = (none, sb)) ∧
    (0 < n → n ≤ (SAMPLE_BUFF_SIZE : Int) →
      NextSliceFor sb n =
        (some ((if sb.iSample + n.toNat > SAMPLE_BUFF_SIZE then 0 else sb.iSample), n.toNat),
         { sb with
             iSample :=
               (if sb.iSample + n.toNat > SAMPLE_BUFF_SIZE then 0 else sb.iSample) + n.toNat,
             nSamples := (sb.nSamples + n.toNat) % 2 ^ 64 }) ∧
      (if sb.iSample + n.toNat > SAMPLE_BUFF_SIZE then 0 else sb.iSample) + n.toNat
        ≤ SAMPLE_BUFF_SIZE) := by
  constructor
  · intro h
    rcases h with h | h
    · unfold NextSliceFor
      rw [if_pos h]
    · unfold NextSliceFor
      rw [if_neg (by omega), if_neg (by omega)]
  · intro h1 h2
    refine ⟨?_, ?_⟩
    · unfold NextSliceFor
      rw [if_neg (by omega), if_pos h2]
    · split
      · omega
      · omega

/-- Witness for C1: a successful allocation of 5 samples from the initial
ring, and a failing allocation with `n = -3 ≤ 0`. -/
theorem nextSliceFor_spec_witness :
    NextSliceFor {} 5 =
      (some (0, 5), { SampBuff := fun _ => 0, iSample := 5, nSamples := 5 }) ∧
    NextSliceFor {} (-3) = (none, {}) := by
  constructor
  · exact (((nextSliceFor_spec {} 5).2 (by decide) (by decide)).1).trans (by rfl)
  · exact (nextSliceFor_spec {} (-3)).1 (Or.inl (by decide))

end Buffer

/-- Claim C5 counterexample: the sentinel `NOT_A_SAMPLE` of
src/buffer/buffer.go (the constant the fingerprint writes in
`ScanlineBuff.Next` use) is `0xffff`, not `0x0000` as the claim states. -/
theorem not_a_sample_ne_zero : Buffer.NOT_A_SAMPLE ≠ 0x0000 := by decide

/-- Claim C5 (amended): the repository carries two conflicting definitions of
the reserved sample sentinel: `NOT_A_SAMPLE = 0xffff` in src/buffer/buffer.go
(the revision whose `Next`/`Valid` write and check the start-of-scanline
fingerprint slot there), and `NOT_A_SAMPLE = 0x0000` in the buffer-package
revision of src/unnamed/part_000 (the value the spec follows). -/
theorem not_a_sample_values :
    Buffer.NOT_A_SAMPLE = 0xffff ∧ BufferRev.NOT_A_SAMPLE = 0x0000 :=
  ⟨rfl, rfl⟩

/-- Claim C6 (code bug): evaluating the sizing constants of
src/buffer/buffer.go as Go does — `60 / MIN_RPM` is truncating integer
division on untyped integer constants, so `60 / 22 = 2` — gives
`MAX_SWEEP_SCANLINES = 2200 * 2 = 4400`, `SCANLINE_BUFF_SIZE = 22000` and
`SAMPLE_BUFF_SIZE = 88000000`, not the 6000 / 30000 / 120000000 of the
claim; the exact arithmetic the spec intends, `MAX_PRF * 60 / MIN_RPM`,
does equal 6000 (last conjunct). -/
theorem sizing_constants_eval :
    Buffer.MAX_SWEEP_SCANLINES = 4400 ∧
    Buffer.SCANLINE_BUFF_SIZE = 22000 ∧
    Buffer.SAMPLE_BUFF_SIZE = 88000000 ∧
    60 / Buffer.MIN_RPM = 2 ∧
    Buffer.MAX_PRF * 60 / Buffer.MIN_RPM = 6000 := by
  decide

namespace Fpga

/-- Claim C2 (code bug): `HasFired` as implemented returns
`(Status & STATUS_FIRED) == 0`, the NEGATION of the claimed predicate: with
the `STATUS_FIRED` bit (bit 2, value 4) set in the Status register it
returns `false`, and with the Status register clear it returns `true`. -/
theorem hasFired_at_failing_input :
    HasFired { Status := STATUS_FIRED } = false ∧
    HasFired { Status := 0 } = true ∧
    STATUS_FIRED = 4 :=
  ⟨rfl, rfl, rfl⟩

/-- Claim C7 (code bug): `SetNumSamp` only checks `1 ≤ n ≤ 16384`: it accepts
`n = 1` and odd `n` such as `3`, writing them to the `NumSamp` register and
returning `true`, although the register's own description (and the claim)
require `n` even and `2 ≤ n ≤ 16384`; out-of-range inputs `0` and `16385`
are rejected with the register unchanged. -/
theorem setNumSamp_at_failing_inputs :
    SetNumSamp 1 {} = (true, { NumSamp := 1 }) ∧
    SetNumSamp 3 {} = (true, { NumSamp := 3 }) ∧
    SetNumSamp 0 {} = (false, {}) ∧
    SetNumSamp 16385 {} = (false, {}) :=
  ⟨rfl, rfl, rfl, rfl⟩

/-- Claim C8: `SetDecim` writes `rate` to the `DecRate` register and returns
`true` for every rate in `1..65536`, and returns `false` leaving the
register block unchanged exactly when the rate is outside that range. -/
theorem setDecim_spec (d : Nat) (r : Regs) :
    (1 ≤ d → d ≤ 65536 → SetDecim d r = (true, { r with DecRate := d })) ∧
    (d < 1 ∨ 65536 < d → SetDecim d r = (false, r)) := by
  constructor
  · intro h1 h2
    unfold SetDecim
    rw [if_neg (by omega)]
  · intro h
    unfold SetDecim
    rw [if_pos (by omega)]

/-- Witness for C8: the boundary rate 65536 succeeds, 65537 fails. -/
theorem setDecim_spec_witness :
    SetDecim 65536 {} = (true, { DecRate := 65536 }) ∧
    SetDecim 65537 {} = (false, {}) := by
  constructor
  · exact ((setDecim_spec 65536 {}).1 (by decide) (by decide)).trans rfl
  · exact (setDecim_spec 65537 {}).2 (Or.inr (by decide))

end Fpga

end Ogdar

namespace Ogdar

namespace Buffer

/-- Claim C4: for every scanline `s` whose `Samples` view has at least the
two fingerprint slots (`2 ≤ len`), `Scanline.Valid` returns true if and only
if the fingerprint still matches: the first sample of the view equals
`NOT_A_SAMPLE` and the second equals the low 16 bits of `s.TrigCount`. -/
theorem valid_iff (buf : Nat → Nat) (s : Scanline) (st len : Nat)
    (hs : s.Samples = some (st, len)) (h2 : 2 ≤ len) :
    (Valid buf s = .value true ↔
      (buf st = NOT_A_SAMPLE ∧ buf (st + 1) = s.TrigCount % 2 ^ 16)) := by
  by_cases hb : buf st = NOT_A_SAMPLE
  · simp only [Valid, hs]
    rw [if_pos (by omega), if_pos hb, if_pos (by omega)]
    simp [hb]
  · simp only [Valid, hs]
    rw [if_pos (by omega), if_neg hb]
    simp [hb]

/-- Witness for C4: a ring whose slots 0 and 1 hold the fingerprint of a
scanline with `TrigCount = 7` validates. -/
theorem valid_iff_witness :
    Valid (fun j => if j = 0 then 0xffff else if j = 1 then 7 else 0)
      { TrigCount := 7, Samples := some (0, 2) } = .value true :=
  (valid_iff (fun j => if j = 0 then 0xffff else if j = 1 then 7 else 0)
      { TrigCount := 7, Samples := some (0, 2) } 0 2 rfl (by decide)).mpr
    ⟨rfl, rfl⟩

/-- A successful sample-ring allocation was for a positive in-range request
and the returned view has exactly the requested length. -/
theorem nextSliceFor_of_some (sb sb' : SampleBuff) (n : Int) (st len : Nat)
    (h : NextSliceFor sb n = (some (st, len), sb')) :
    0 < n ∧ n ≤ (SAMPLE_BUFF_SIZE : Int) ∧ len = n.toNat := by
  by_cases h0 : n ≤ 0
  · exfalso
    unfold NextSliceFor at h
    rw [if_pos h0] at h
    simp at h
  · by_cases h1 : n ≤ (SAMPLE_BUFF_SIZE : Int)
    · refine ⟨by omega, h1, ?_⟩
      unfold NextSliceFor at h
      rw [if_neg h0, if_pos h1] at h
      simp only [Prod.mk.injEq, Option.some.injEq] at h
      exact h.1.2.symm
    · exfalso
      unfold NextSliceFor at h
      rw [if_neg h0, if_neg h1] at h
      simp at h

/-- Claim C3 counterexample: at `n = -1` the sample-ring request for
`n + 2 = 1` samples succeeds with a length-1 slice, and the second
fingerprint write `samps[1] = Sample(trig)` then indexes the slice out of
bounds: `Next` panics instead of returning an error (with state unchanged)
or the described success state. -/
theorem scanlineNext_neg_one_panics :
    Next {} (-1) 0 = GoResult.panic := rfl

/-- Claim C3 (amended to exclude `n = -1`, where the sample-ring request
succeeds with a length-1 slice and the fingerprint write panics): for every
`n ≠ -1` and `trig`, `ScanlineBuff.Next n trig` requests `n + 2` samples
from the sample ring; if that request fails it returns an error with the
whole state (scanline cursor, all slots, and the sample ring) unchanged; if
it succeeds the returned view has the two fingerprint slots (`2 ≤ len`), the
scanline cursor wraps to 0 when at the end of the array, the fingerprint
`{NOT_A_SAMPLE, low16(trig)}` is written into the first two samples of the
allocated view, the view is stored in the slot at the returned index, and
the cursor advances by one. -/
theorem scanlineNext_spec (slb : ScanlineBuff) (n : Int) (trig : Nat)
    (hn : n ≠ -1) :
    ((NextSliceFor slb.samp (n + 2)).1 = none →
       Next slb n trig = .value (none, slb)) ∧
    (∀ st len sb', NextSliceFor slb.samp (n + 2) = (some (st, len), sb') →
       2 ≤ len ∧
       Next slb n trig = .value
         (some (if slb.iScanline ≥ SCANLINE_BUFF_SIZE then 0 else slb.iScanline),
          { samp := { SampBuff :=
                        writeSample (writeSample sb'.SampBuff st NOT_A_SAMPLE)
                          (st + 1) (trig % 2 ^ 16),
                      iSample := sb'.iSample, nSamples := sb'.nSamples },
            ScanBuff := fun j =>
              if j = (if slb.iScanline ≥ SCANLINE_BUFF_SIZE then 0 else slb.iScanline)
              then { slb.ScanBuff
                       (if slb.iScanline ≥ SCANLINE_BUFF_SIZE then 0 else slb.iScanline)
                     with Samples := some (st, len) }
              else slb.ScanBuff j,
            iScanline :=
              (if slb.iScanline ≥ SCANLINE_BUFF_SIZE then 0 else slb.iScanline) + 1,
            nScanlines := slb.nScanlines })) := by
  constructor
  · intro h
    have hf := nextSliceFor_of_none slb.samp (n + 2) h
    unfold Next
    rw [hf]
  · intro st len sb' h
    obtain ⟨hpos, hle, hlen⟩ := nextSliceFor_of_some _ _ _ _ _ h
    have hlen2 : 2 ≤ len := by omega
    refine ⟨hlen2, ?_⟩
    unfold Next
    rw [h]
    dsimp only
    rw [if_pos (by omega : (0:Nat) < len), if_pos (by omega : 1 < len)]

/-- Witness for C3: allocating a 3-sample scanline with `trig = 7` from the
initial state succeeds at index 0 with the 5-slot view `(0, 5)`, writes the
fingerprint into slots 0 and 1, and advances the scanline cursor to 1. -/
theorem scanlineNext_spec_witness :
    Next {} 3 7 = GoResult.value (some 0,
      { samp := { SampBuff :=
                    writeSample (writeSample (fun _ => 0) 0 NOT_A_SAMPLE) 1 7,
                  iSample := 5, nSamples := 5 },
        ScanBuff := fun j => if j = 0 then { Samples := some (0, 5) } else {},
        iScanline := 1, nScanlines := 0 }) := by
  have h := ((scanlineNext_spec {} 3 7 (by decide)).2 0 5
      { SampBuff := fun _ => 0, iSample := 5, nSamples := 5 } (by rfl)).2
  exact h.trans (by rfl)

end Buffer

end Ogdar

namespace Ogdar

namespace Buffer

/-- Claim C10 counterexample: a scanline whose `Samples` view has length 1
(less than 2) over a ring whose first sample is not `NOT_A_SAMPLE` does NOT
panic: Go's `&&` short-circuits after `s.Samples[0] == NOT_A_SAMPLE`
evaluates to false, so `Valid` returns false without indexing
`s.Samples[1]`. -/
theorem valid_len1_no_panic :
    Valid (fun _ => 0) { Samples := some (0, 1) } = GoResult.value false := rfl

/-- Claim C10 (amended): `Scanline.Valid` is partial at the public
interface, with this exact panic region: a nil or length-0 `Samples` view
always panics; a length-1 view panics exactly when its single sample equals
`NOT_A_SAMPLE` (otherwise `&&` short-circuits and `Valid` returns false);
under the precondition `len ≥ 2` the check is total; and every slot filled
in by a successful `ScanlineBuff.Next` holds a view of length ≥ 2, so the
panic branches are unreachable for scanlines `Next` produces. -/
theorem valid_partiality (buf : Nat → Nat) (s : Scanline) :
    (s.Samples = none → Valid buf s = .panic) ∧
    (∀ st, s.Samples = some (st, 0) → Valid buf s = .panic) ∧
    (∀ st, s.Samples = some (st, 1) →
       (buf st = NOT_A_SAMPLE → Valid buf s = .panic) ∧
       (buf st ≠ NOT_A_SAMPLE → Valid buf s = .value false)) ∧
    (∀ st len, s.Samples = some (st, len) → 2 ≤ len →
       Valid buf s =
         .value (decide (buf st = NOT_A_SAMPLE ∧
                         buf (st + 1) = s.TrigCount % 2 ^ 16))) ∧
    (∀ slb n trig i slb', Next slb n trig = GoResult.value (some i, slb') →
       ∃ st len, (slb'.ScanBuff i).Samples = some (st, len) ∧ 2 ≤ len) := by
  refine ⟨?_, ?_, ?_, ?_, ?_⟩
  · intro h
    simp only [Valid, h]
  · intro st h
    simp only [Valid, h]
    rw [if_neg (by omega)]
  · intro st h
    constructor
    · intro hb
      simp only [Valid, h]
      rw [if_pos (by omega), if_pos hb, if_neg (by omega)]
    · intro hb
      simp only [Valid, h]
      rw [if_pos (by omega), if_neg hb]
  · intro st len h hlen
    by_cases hb : buf st = NOT_A_SAMPLE
    · simp only [Valid, h]
      rw [if_pos (by omega), if_pos hb, if_pos (by omega)]
      congr 1
      rw [eq_comm, decide_eq_decide]
      simp [hb]
    · simp only [Valid, h]
      rw [if_pos (by omega), if_neg hb]
      congr 1
      rw [eq_comm, decide_eq_false_iff_not]
      intro hc
      exact hb hc.1
  · intro slb n trig i slb' h
    unfold Next at h
    rcases hns : NextSliceFor slb.samp (n + 2) with ⟨os, sb1⟩
    rw [hns] at h
    rcases os with _ | ⟨st, len⟩
    · simp at h
    · dsimp only at h
      by_cases h1 : 0 < len
      · by_cases h2 : 1 < len
        · rw [if_pos h1, if_pos h2] at h
          simp only [GoResult.value.injEq, Prod.mk.injEq, Option.some.injEq] at h
          obtain ⟨hk, hs⟩ := h
          refine ⟨st, len, ?_, by omega⟩
          rw [← hs, ← hk]
          simp
        · rw [if_pos h1, if_neg h2] at h
          exact absurd h (by simp)
      · rw [if_neg h1] at h
        exact absurd h (by simp)

/-- Witness for C10: the nil, length-0, sentinel-length-1 and length-2
cases of `valid_partiality` at concrete inputs. -/
theorem valid_partiality_witness :
    Valid (fun _ => 0) {} = GoResult.panic ∧
    Valid (fun _ => 0) { Samples := some (3, 0) } = GoResult.panic ∧
    Valid (fun _ => NOT_A_SAMPLE) { Samples := some (3, 1) } = GoResult.panic ∧
    Valid (fun _ => 0) { Samples := some (0, 2) } = GoResult.value false := by
  refine ⟨?_, ?_, ?_, ?_⟩
  · exact (valid_partiality (fun _ => 0) {}).1 rfl
  · exact (valid_partiality (fun _ => 0) { Samples := some (3, 0) }).2.1 3 rfl
  · exact ((valid_partiality (fun _ => NOT_A_SAMPLE)
      { Samples := some (3, 1) }).2.2.1 3 rfl).1 rfl
  · have h := (valid_partiality (fun _ => 0)
      { Samples := some (0, 2) }).2.2.2.1 0 2 rfl (by decide)
    exact h.trans (by rfl)

end Buffer

end Ogdar

namespace Ogdar

namespace Fpga

/-- The 59 register-lane names produced by the `Init` loop are pairwise
distinct, so the Go map `RegMap` holds one entry per lane and
`len(RegMap) = len(RegIndex) = regEntries.length`. -/
theorem regEntries_names_nodup : (regEntries.map Prod.fst).Nodup := by decide

/-- `lookupIdx` returns an in-bounds index whose entry carries the looked-up
name. -/
theorem lookupIdx_mem (l : List (String × Nat)) (x : String) (i : Nat)
    (h : lookupIdx l x = some i) :
    i < l.length ∧ (l.getD i ("", 0)).1 = x := by
  induction l generalizing i with
  | nil => simp [lookupIdx] at h
  | cons e rest ih =>
    rw [lookupIdx] at h
    by_cases he : e.1 = x
    · rw [if_pos he] at h
      simp only [Option.some.injEq] at h
      subst h
      refine ⟨by simp, ?_⟩
      rw [List.getD_cons_zero]
      exact he
    · rw [if_neg he] at h
      rcases hr : lookupIdx rest x with _ | j
      · rw [hr] at h
        simp at h
      · rw [hr] at h
        simp only [Option.map_some', Option.some.injEq] at h
        obtain ⟨hlt, hget⟩ := ih j hr
        subst h
        refine ⟨by simpa using Nat.succ_lt_succ hlt, ?_⟩
        rw [List.getD_cons_succ]
        exact hget

/-- Claim C9: generic register access round-trips.  For every name present
in the accessor table, `SetRegByName` succeeds and a following
`GetRegByName` on the resulting register block returns the written value
(both resolve the name to the same byte offset via the shared
`RegMap`/`regEntries` tables); for every name not in the table the get
fails with `(0, false)` and the set fails with `false`, leaving the
register block unchanged. -/
theorem regByName_roundtrip (x : String) (v : Nat) (mem : Nat → Nat) :
    ((RegMap x).isSome = true →
       (SetRegByName mem x v).2 = true ∧
       GetRegByName (SetRegByName mem x v).1 x = (v, true)) ∧
    ((RegMap x).isSome = false →
       GetRegByName mem x = (0, false) ∧ SetRegByName mem x v = (mem, false)) := by
  constructor
  · intro h
    rcases hm : RegMap x with _ | i
    · rw [hm] at h
      simp at h
    · obtain ⟨hlt, hx⟩ := lookupIdx_mem regEntries x i hm
      unfold SetRegByName GetRegByName SetRegByIndex GetRegByIndex
      rw [hm]
      dsimp only
      have hni : ¬ regEntries.length ≤ i := by omega
      simp only [if_neg hni]
      simp
  · intro h
    rcases hm : RegMap x with _ | i
    · unfold SetRegByName GetRegByName
      rw [hm]
      exact ⟨rfl, rfl⟩
    · rw [hm] at h
      simp at h

/-- Witness for C9: the known names `NumSamp` (a 32-bit register) and
`TrigClock_lo` (the low lane of a 64-bit register) round-trip; the unknown
name `bogus` fails on both get and set with the register block unchanged. -/
theorem regByName_roundtrip_witness :
    GetRegByName (SetRegByName (fun _ => 0) "NumSamp" 4000).1 "NumSamp"
      = (4000, true) ∧
    GetRegByName (SetRegByName (fun _ => 0) "TrigClock_lo" 77).1 "TrigClock_lo"
      = (77, true) ∧
    GetRegByName (fun _ => 0) "bogus" = (0, false) ∧
    SetRegByName (fun _ => 0) "bogus" 4000 = ((fun _ => 0), false) := by
  refine ⟨?_, ?_, ?_, ?_⟩
  · exact ((regByName_roundtrip "NumSamp" 4000 (fun _ => 0)).1 rfl).2
  · exact ((regByName_roundtrip "TrigClock_lo" 77 (fun _ => 0)).1 rfl).2
  · exact ((regByName_roundtrip "bogus" 4000 (fun _ => 0)).2 rfl).1
  · exact ((regByName_roundtrip "bogus" 4000 (fun _ => 0)).2 rfl).2

end Fpga

end Ogdar
